import Mathlib

/-!
Shallow embedding of the `ProcessManager` subsystem of the code-d repository
(file `processManager.ts`): process probing (`checkProcessWindows`,
`checkProcessUnix`), termination with escalation (`killProcessWindows`,
`killProcessUnix`), the orchestrators (`checkAllProcesses`,
`killAllProcesses`, which join three concurrent per-name calls with
`Promise.all` semantics), and the pure formatter (`formatProcessStatus`).

The external world (the `exec` of `child_process`) is modeled as an oracle
`Sys` mapping a call counter and a command string to an `ExecResult`.  Every
embedded operation threads a `PState` holding the call counter and an event
trace (one event per dispatched command, plus one event per `setTimeout`
sleep), so ordering properties of a run are statements about the trace.
JavaScript numbers produced by `parseInt` are modeled as `Option Int`, with
`none` playing the role of `NaN`.  A thrown error object is modeled by its
optional `code` field, of type `Option Int`.
-/

/-- Outcome of one external command invocation: captured stdout on success,
or a failure carrying the optional exit code of the thrown error object. -/
inductive ExecResult where
  | ok (stdout : String)
  | err (code : Option Int)
deriving Repr, DecidableEq

/-- Truth of an `ExecResult` being a success. -/
def ExecResult.isOk : ExecResult → Bool
  | ExecResult.ok _ => true
  | ExecResult.err _ => false

/-- The operating system as an oracle: the result of the n-th suspension
point (command execution or sleep) when the given command is dispatched. -/
abbrev Sys := Nat → String → ExecResult

/-- One observable event of a run: a dispatched command with its result, or
a timer sleep of the given number of milliseconds. -/
inductive Event where
  | exec (cmd : String) (res : ExecResult)
  | sleep (ms : Nat)
deriving Repr, DecidableEq

/-- State threaded through a run: the suspension-point counter and the trace
of events so far. -/
structure PState where
  time : Nat
  trace : List Event
deriving Repr, DecidableEq

/-- Initial state of a fresh run. -/
def initState : PState := { time := 0, trace := [] }

/-- View of an `ExecResult` as the `Except` outcome of an awaited `exec`
call: success yields stdout, failure throws the error object. -/
def resultToExcept : ExecResult → Except (Option Int) String
  | ExecResult.ok out => Except.ok out
  | ExecResult.err c => Except.error c

/-- Awaiting `exec(cmd)`: consult the oracle at the current counter, record
the event, advance the counter. -/
def execCmd (sys : Sys) (cmd : String) (s : PState) :
    Except (Option Int) String × PState :=
  (resultToExcept (sys s.time cmd),
   { time := s.time + 1, trace := s.trace ++ [Event.exec cmd (sys s.time cmd)] })

/-- Awaiting `new Promise(resolve => setTimeout(resolve, ms))`: record a
sleep event and advance the counter. -/
def sleepFor (ms : Nat) (s : PState) : PState :=
  { time := s.time + 1, trace := s.trace ++ [Event.sleep ms] }

/-- JavaScript `haystack.includes(needle)` on strings. -/
def jsIncludes (haystack needle : String) : Bool :=
  decide (List.IsInfix needle.data haystack.data)

/-- JavaScript `s.trim()`: strip leading and trailing whitespace. -/
def jsTrim (s : String) : String :=
  ⟨((s.data.dropWhile Char.isWhitespace).reverse.dropWhile
      Char.isWhitespace).reverse⟩

/-- Fuel-driven splitting of a character list on a non-empty separator,
structurally recursive so that concrete runs reduce inside the kernel. -/
def jsSplitAux (sep : List Char) : Nat → List Char → List (List Char)
  | 0, _ => [[]]
  | _ + 1, [] => [[]]
  | fuel + 1, c :: rest =>
    if sep.isPrefixOf (c :: rest) then
      [] :: jsSplitAux sep fuel ((c :: rest).drop sep.length)
    else
      match jsSplitAux sep fuel rest with
      | [] => [[c]]
      | h :: t => (c :: h) :: t

/-- JavaScript `s.split(sep)` for a non-empty separator string. -/
def jsSplit (s sep : String) : List String :=
  (jsSplitAux sep.data (s.data.length + 1) s.data).map (fun cs => ⟨cs⟩)

/-- JavaScript `s.replace(quote-regexp-global, empty)`: drop every double
quote character. -/
def stripQuotes (s : String) : String :=
  ⟨s.data.filter (fun c => !(c == '"'))⟩

/-- Propositional equality on `Except` values is decidable once both
component types have decidable equality. -/
instance {ε α : Type} [DecidableEq ε] [DecidableEq α] :
    DecidableEq (Except ε α) := fun a b =>
  match a, b with
  | Except.ok x, Except.ok y =>
    if h : x = y then isTrue (by rw [h])
    else isFalse (by intro he; cases he; exact h rfl)
  | Except.ok _, Except.error _ => isFalse (by intro h; cases h)
  | Except.error _, Except.ok _ => isFalse (by intro h; cases h)
  | Except.error x, Except.error y =>
    if h : x = y then isTrue (by rw [h])
    else isFalse (by intro he; cases he; exact h rfl)

/-- Numeric value of a list of decimal digit characters. -/
def digitsVal (cs : List Char) : Nat :=
  List.foldl (fun a c => a * 10 + (c.toNat - 48)) 0 cs

/-- Longest leading run of decimal digits, or failure when there is none. -/
def parseDigits (cs : List Char) : Option Nat :=
  let ds := cs.takeWhile Char.isDigit
  if ds.isEmpty then none else some (digitsVal ds)

/-- JavaScript `parseInt(s, 10)`: skip leading whitespace, read an optional
sign and then the longest digit prefix; `none` models the `NaN` result. -/
def parseIntJS (s : String) : Option Int :=
  match s.data.dropWhile Char.isWhitespace with
  | '-' :: rest => (parseDigits rest).map (fun n => -(n : Int))
  | '+' :: rest => (parseDigits rest).map (fun n => (n : Int))
  | cs => (parseDigits cs).map (fun n => (n : Int))

/-- Rendering of a JavaScript number in a template literal; `none` (`NaN`)
prints as the text NaN. -/
def jsNumToString : Option Int → String
  | some n => toString n
  | none => "NaN"

/-- Mirror of the `ProcessInfo` interface of the source.  The `pid` field is
a JavaScript number (`none` models `NaN`); `command` is optional. -/
structure ProcessInfo where
  name : String
  pid : Option Int
  running : Bool
  command : Option String := none
deriving Repr, DecidableEq

/-- Command string built by `checkProcessWindows`. -/
def tasklistCmd (name : String) : String :=
  "tasklist /FI \"IMAGENAME eq " ++ name ++ ".exe\" /FO CSV /NH"

/-- First pgrep pattern of `checkProcessUnix` (full-command-line substring
match); also the enumeration command of `killProcessUnix`. -/
def pgrepFullCmd (name : String) : String := "pgrep -f \"" ++ name ++ "\""

/-- Second pgrep pattern of `checkProcessUnix` (exact executable name). -/
def pgrepExactCmd (name : String) : String := "pgrep -x \"" ++ name ++ "\""

/-- Third pgrep pattern of `checkProcessUnix` (path-qualified match). -/
def pgrepPathCmd (name : String) : String := "pgrep -f \"/.*" ++ name ++ "\""

/-- The fixed strategy order tried by `checkProcessUnix`. -/
def unixPatterns (name : String) : List String :=
  [pgrepFullCmd name, pgrepExactCmd name, pgrepPathCmd name]

/-- Command string built by `killProcessWindows`; the flag is the empty
string when force is off, exactly as the template literal of the source. -/
def taskkillCmd (name : String) (force : Bool) : String :=
  "taskkill " ++ (if force then "/F" else "") ++ " /IM \"" ++ name ++ ".exe\""

/-- Broad-kill command of `killProcessUnix`: killall with a pkill fallback
chained by logical OR. -/
def broadKillCmd (signal name : String) : String :=
  "killall " ++ signal ++ " " ++ name ++ " 2>/dev/null || pkill " ++ signal
    ++ " -f " ++ name ++ " 2>/dev/null"

/-- Targeted per-pid kill command of `killProcessUnix`. -/
def killPidCmd (signal pid : String) : String :=
  "kill " ++ signal ++ " " ++ pid

/-- Embedding of `ProcessManager.checkProcessWindows` (source lines
133-151): run tasklist, and when the first CSV record mentions the name,
strip quotes, split on commas, parse field 1 as the pid and keep field 0 as
the command text; any failure or non-match collapses to a not-running
report. -/
def checkProcessWindows (sys : Sys) (name : String) (s : PState) :
    ProcessInfo × PState :=
  match execCmd sys (tasklistCmd name) s with
  | (Except.ok stdout, s1) =>
    let lines := jsSplit (jsTrim stdout) "\r\n"
    if 0 < lines.length ∧ jsIncludes (lines.headD "") name = true then
      let parts := jsSplit (stripQuotes (lines.headD "")) ","
      ({ name := name, pid := parseIntJS ((parts.get? 1).getD "undefined"),
         running := true, command := some (parts.headD "") }, s1)
    else
      ({ name := name, pid := some (-1), running := false }, s1)
  | (Except.error _, s1) =>
      ({ name := name, pid := some (-1), running := false }, s1)

/-- Loop of `ProcessManager.checkProcessUnix` (source lines 161-179) over
the pgrep patterns: a failing command or an empty filtered pid list moves on
to the next pattern; the first pattern with a usable pid list reports
running with its first pid. -/
def checkProcessUnixLoop (sys : Sys) (name : String) :
    List String → PState → ProcessInfo × PState
  | [], s => ({ name := name, pid := some (-1), running := false }, s)
  | p :: rest, s =>
    match execCmd sys p s with
    | (Except.ok stdout, s1) =>
      let pids := (jsSplit (jsTrim stdout) "\n").filter
        (fun line => 0 < line.length && (parseIntJS line).isSome)
      if 0 < pids.length then
        ({ name := name, pid := parseIntJS (pids.headD ""), running := true }, s1)
      else
        checkProcessUnixLoop sys name rest s1
    | (Except.error _, s1) => checkProcessUnixLoop sys name rest s1

/-- Embedding of `ProcessManager.checkProcessUnix` (source lines 156-184). -/
def checkProcessUnix (sys : Sys) (name : String) (s : PState) :
    ProcessInfo × PState :=
  checkProcessUnixLoop sys name (unixPatterns name) s

/-- Embedding of `ProcessManager.checkProcess` (source lines 122-128); the
platform test `process.platform === "win32"` is the boolean `win`. -/
def checkProcess (sys : Sys) (win : Bool) (name : String) (s : PState) :
    ProcessInfo × PState :=
  if win then checkProcessWindows sys name s else checkProcessUnix sys name s

/-- Embedding of `ProcessManager.killProcessWindows` (source lines 200-211):
one taskkill dispatch; success returns true, a thrown code 128 (image not
found) returns false, any other thrown error propagates. -/
def killProcessWindows (sys : Sys) (name : String) (force : Bool)
    (s : PState) : Except (Option Int) Bool × PState :=
  match execCmd sys (taskkillCmd name force) s with
  | (Except.ok _, s1) => (Except.ok true, s1)
  | (Except.error code, s1) =>
      if code = some 128 then (Except.ok false, s1)
      else (Except.error code, s1)

/-- For-loop of `killProcessUnix` over the enumerated pids (source lines
243-250): each pid gets one kill dispatch; a success sets the killed flag, a
failure is ignored and the loop continues with the remaining pids. -/
def killPidsLoop (sys : Sys) (signal : String) :
    List String → Bool → PState → Bool × PState
  | [], killed, s => (killed, s)
  | pid :: rest, killed, s =>
    match execCmd sys (killPidCmd signal pid) s with
    | (Except.ok _, s1) => killPidsLoop sys signal rest true s1
    | (Except.error _, s1) => killPidsLoop sys signal rest killed s1

/-- Outcome of the two kill phases of `killProcessUnix` before the
escalation check: a fatal pgrep failure to rethrow, a benign pgrep exit
code 1 (return the flag immediately through the outer catch, source line
267), or normal completion reaching source line 253. -/
inductive PhaseOut where
  | fatal (code : Option Int)
  | noProc (killed : Bool)
  | phasesDone (killed : Bool)
deriving Repr, DecidableEq

/-- Kill phases of `ProcessManager.killProcessUnix` (source lines 220-251
and the catch of lines 265-269): the broad killall-or-pkill dispatch with
its failure suppressed, then the pgrep enumeration, then the per-pid loop. -/
def killUnixPhases (sys : Sys) (name signal : String) (s : PState) :
    PhaseOut × PState :=
  match execCmd sys (broadKillCmd signal name) s with
  | (r0, s1) =>
    let killed0 := match r0 with
      | Except.ok _ => true
      | Except.error _ => false
    match execCmd sys (pgrepFullCmd name) s1 with
    | (Except.error code, s2) =>
        if code = some 1 then (PhaseOut.noProc killed0, s2)
        else (PhaseOut.fatal code, s2)
    | (Except.ok stdout, s2) =>
        let pids := (jsSplit (jsTrim stdout) "\n").filter
          (fun line => 0 < line.length)
        match killPidsLoop sys signal pids killed0 s2 with
        | (killed1, s3) => (PhaseOut.phasesDone killed1, s3)

/-- Forced branch of `ProcessManager.killProcessUnix` (force = true): the
two phases with signal -9 and no escalation check. -/
def killProcessUnixForced (sys : Sys) (name : String) (s : PState) :
    Except (Option Int) Bool × PState :=
  match killUnixPhases sys name "-9" s with
  | (PhaseOut.fatal code, s1) => (Except.error code, s1)
  | (PhaseOut.noProc killed, s1) => (Except.ok killed, s1)
  | (PhaseOut.phasesDone killed, s1) => (Except.ok killed, s1)

/-- Graceful branch of `ProcessManager.killProcessUnix` (force = false):
the two phases with signal -15, then the settle delay of 1000 ms, the
re-probe, and on a still-running report the single recursive forced call
whose outcome replaces the graceful one (source lines 253-262); an error
thrown by the recursion reaches the outer catch of lines 265-269. -/
def killProcessUnixGraceful (sys : Sys) (name : String) (s : PState) :
    Except (Option Int) Bool × PState :=
  match killUnixPhases sys name "-15" s with
  | (PhaseOut.fatal code, s1) => (Except.error code, s1)
  | (PhaseOut.noProc killed, s1) => (Except.ok killed, s1)
  | (PhaseOut.phasesDone killed, s1) =>
    let s2 := sleepFor 1000 s1
    match checkProcessUnix sys name s2 with
    | (stillRunning, s3) =>
      if stillRunning.running then
        match killProcessUnixForced sys name s3 with
        | (Except.ok b, s4) => (Except.ok b, s4)
        | (Except.error code, s4) =>
            if code = some 1 then (Except.ok killed, s4)
            else (Except.error code, s4)
      else (Except.ok killed, s3)

/-- Embedding of `ProcessManager.killProcessUnix` (source lines 216-270). -/
def killProcessUnix (sys : Sys) (name : String) (force : Bool) (s : PState) :
    Except (Option Int) Bool × PState :=
  if force then killProcessUnixForced sys name s
  else killProcessUnixGraceful sys name s

/-- Embedding of `ProcessManager.killProcess` (source lines 189-195). -/
def killProcess (sys : Sys) (win : Bool) (name : String) (force : Bool)
    (s : PState) : Except (Option Int) Bool × PState :=
  if win then killProcessWindows sys name force s
  else killProcessUnix sys name force s

/-- Result record of `checkAllProcesses`. -/
structure CheckAllResult where
  served : ProcessInfo
  dcdServer : ProcessInfo
  dcdClient : ProcessInfo
deriving Repr, DecidableEq

/-- Result record of `killAllProcesses`. -/
structure KillAllResult where
  served : Bool
  dcdServer : Bool
  dcdClient : Bool
deriving Repr, DecidableEq

/-- Embedding of `ProcessManager.checkAllProcesses` (source lines 275-287):
three independent concurrent probes, one oracle per member, joined by
`Promise.all`; probes cannot reject, so the join always succeeds. -/
def checkAllProcesses (win : Bool) (sysA sysB sysC : Sys) : CheckAllResult :=
  { served := (checkProcess sysA win "serve-d" initState).1,
    dcdServer := (checkProcess sysB win "dcd-server" initState).1,
    dcdClient := (checkProcess sysC win "dcd-client" initState).1 }

/-- Embedding of `ProcessManager.killAllProcesses` (source lines 292-310):
three independent concurrent kill calls joined by `Promise.all`, which
yields the record of outcomes when all fulfil and rejects with an error as
soon as any member rejects. -/
def killAllProcesses (win : Bool) (sysA sysB sysC : Sys) (force : Bool) :
    Except (Option Int) KillAllResult :=
  match (killProcess sysA win "serve-d" force initState).1,
        (killProcess sysB win "dcd-server" force initState).1,
        (killProcess sysC win "dcd-client" force initState).1 with
  | Except.ok a, Except.ok b, Except.ok c =>
      Except.ok { served := a, dcdServer := b, dcdClient := c }
  | Except.error e, _, _ => Except.error e
  | _, Except.error e, _ => Except.error e
  | _, _, Except.error e => Except.error e

/-- Embedding of `ProcessManager.formatProcessStatus` (source lines
315-320). -/
def formatProcessStatus (info : ProcessInfo) : String :=
  let icon := if info.running then "$(check)" else "$(x)"
  let status := if info.running then "running" else "stoped"
  let pidInfo :=
    if info.running then " (PID: " ++ jsNumToString info.pid ++ ")" else ""
  icon ++ " " ++ info.name ++ ": " ++ status ++ pidInfo

/-- Number of events in a trace that dispatch the given command. -/
def execCount (cmd : String) (t : List Event) : Nat :=
  t.countP (fun e => match e with
    | Event.exec c _ => c == cmd
    | Event.sleep _ => false)

/-- Number of sleep events in a trace. -/
def sleepCount (t : List Event) : Nat :=
  t.countP (fun e => match e with
    | Event.exec _ _ => false
    | Event.sleep _ => true)

/-- Filtered pid list that the targeted-kill phase derives from the pgrep
output (source lines 233-236). -/
def targetPids (out : String) : List String :=
  (jsSplit (jsTrim out) "\n").filter (fun line => 0 < line.length)

/-- Filtered pid list that the probe derives from one pgrep output (source
lines 164-167). -/
def probePids (out : String) : List String :=
  (jsSplit (jsTrim out) "\n").filter
    (fun line => 0 < line.length && (parseIntJS line).isSome)

/-- Event list produced by the targeted-kill loop on a pid list, one kill
dispatch with its result per pid. -/
def killEvents (signal : String) (pids : List String)
    (rs : List ExecResult) : List Event :=
  List.zipWith (fun p r => Event.exec (killPidCmd signal p) r) pids rs

/-- Failure of one probe strategy in the sense of the spec: its command
threw, or it matched no usable pid. -/
def stratFails (r : ExecResult) : Bool :=
  match r with
  | ExecResult.ok out => probePids out == []
  | ExecResult.err _ => true

/-- Oracle of a run where a graceful kill finds one process alive, the
settle re-probe still sees it, and the forced retry then finds nothing. -/
def sysEsc : Sys := fun t _ =>
  match t with
  | 0 => ExecResult.ok ""
  | 1 => ExecResult.ok "101"
  | 2 => ExecResult.ok ""
  | 4 => ExecResult.ok "101"
  | 5 => ExecResult.ok ""
  | _ => ExecResult.err (some 1)

/-- Oracle whose process listing reports the literal text -1 as a pid. -/
def sysNegPid : Sys := fun _ _ => ExecResult.ok "-1"

/-- Oracle on which every command fails with the benign exit code 1. -/
def sysErrAll : Sys := fun _ _ => ExecResult.err (some 1)

/-- Oracle returning one Windows CSV process record. -/
def sysWinRecord : Sys := fun _ _ =>
  ExecResult.ok "\"proc.exe\",\"4242\",\"Services\",\"1\",\"10000 K\""

/-- Oracle on which every command fails fatally with exit code 2. -/
def sysFatalKill : Sys := fun _ _ => ExecResult.err (some 2)

/-- Oracle on which every command succeeds with empty output. -/
def sysOkKill : Sys := fun _ _ => ExecResult.ok ""

/-- Oracle where the broad kill fails, the enumeration matches pid 4242,
and the targeted dispatch to that pid fails as well. -/
def sysMatchFail : Sys := fun t _ =>
  match t with
  | 1 => ExecResult.ok "4242"
  | _ => ExecResult.err (some 1)

/-- Oracle where the broad kill fails, the enumeration matches pids 7 and
8, the dispatch to 7 fails and the dispatch to 8 succeeds. -/
def sysTwoPids : Sys := fun t _ =>
  match t with
  | 1 => ExecResult.ok "7\n8"
  | 3 => ExecResult.ok ""
  | _ => ExecResult.err (some 1)

/-- Oracle on which every command fails with exit code 128. -/
def sys128 : Sys := fun _ _ => ExecResult.err (some 128)

/-- Oracle where the first probe strategy fails and the second matches
pid 55. -/
def sysSecondStrategy : Sys := fun t _ =>
  match t with
  | 1 => ExecResult.ok "55"
  | _ => ExecResult.err (some 1)

/-- Characterization of the targeted-kill loop: it dispatches exactly one
kill command per enumerated pid, in order and regardless of individual
failures, and its flag output is the input flag joined by OR with the
successes of the individual dispatches. -/
theorem killPidsLoop_spec (sys : Sys) (signal : String) :
    ∀ (pids : List String) (killed : Bool) (s : PState),
      ∃ rs : List ExecResult, rs.length = pids.length ∧
        killPidsLoop sys signal pids killed s =
          (killed || rs.any ExecResult.isOk,
           { time := s.time + pids.length,
             trace := s.trace ++ killEvents signal pids rs }) := by
  intro pids
  induction pids with
  | nil =>
    intro killed s
    exact ⟨[], rfl, by simp [killPidsLoop, killEvents]⟩
  | cons p rest ih =>
    intro killed s
    cases h : sys s.time (killPidCmd signal p) with
    | ok out =>
      obtain ⟨rs, hlen, heq⟩ := ih true
        { time := s.time + 1,
          trace := s.trace ++ [Event.exec (killPidCmd signal p) (ExecResult.ok out)] }
      refine ⟨ExecResult.ok out :: rs, by simp [hlen], ?_⟩
      simp only [killPidsLoop, execCmd, h, resultToExcept]
      rw [heq]
      simp [killEvents, ExecResult.isOk, PState.mk.injEq]
      omega
    | err c =>
      obtain ⟨rs, hlen, heq⟩ := ih killed
        { time := s.time + 1,
          trace := s.trace ++ [Event.exec (killPidCmd signal p) (ExecResult.err c)] }
      refine ⟨ExecResult.err c :: rs, by simp [hlen], ?_⟩
      simp only [killPidsLoop, execCmd, h, resultToExcept]
      rw [heq]
      simp [killEvents, ExecResult.isOk, PState.mk.injEq]
      omega

/-- Every event recorded by the targeted-kill loop is a kill dispatch
carrying the selected signal. -/
theorem killEvents_mem (signal : String) :
    ∀ (pids : List String) (rs : List ExecResult) (e : Event),
      e ∈ killEvents signal pids rs →
      ∃ pd r, e = Event.exec (killPidCmd signal pd) r := by
  intro pids
  induction pids with
  | nil => intro rs e he; simp [killEvents] at he
  | cons p rest ih =>
    intro rs e he
    cases rs with
    | nil => simp [killEvents] at he
    | cons r rtail =>
      simp only [killEvents, List.zipWith_cons_cons, List.mem_cons] at he
      rcases he with he | he
      · exact ⟨p, r, he⟩
      · exact ih rtail e he

/-- Outcome and final state of the kill phases when the pgrep enumeration
succeeds: the flag is the OR of the broad-kill success with the per-pid
successes, and the trace grows by the broad-kill event, the pgrep event and
one kill event per enumerated pid. -/
theorem killUnixPhases_done_eq (sys : Sys) (name signal : String)
    (s : PState) (out : String)
    (h2 : sys (s.time + 1) (pgrepFullCmd name) = ExecResult.ok out) :
    ∃ rs : List ExecResult, rs.length = (targetPids out).length ∧
      killUnixPhases sys name signal s =
        (PhaseOut.phasesDone
          ((sys s.time (broadKillCmd signal name)).isOk ||
            rs.any ExecResult.isOk),
         { time := s.time + 2 + (targetPids out).length,
           trace := s.trace ++
             [Event.exec (broadKillCmd signal name)
                (sys s.time (broadKillCmd signal name)),
              Event.exec (pgrepFullCmd name) (ExecResult.ok out)] ++
             killEvents signal (targetPids out) rs }) := by
  cases h1 : sys s.time (broadKillCmd signal name) with
  | ok b0 =>
    obtain ⟨rs, hlen, heq⟩ := killPidsLoop_spec sys signal (targetPids out)
      true
      { time := s.time + 1 + 1,
        trace := s.trace ++ [Event.exec (broadKillCmd signal name)
          (ExecResult.ok b0)] ++
          [Event.exec (pgrepFullCmd name) (ExecResult.ok out)] }
    refine ⟨rs, hlen, ?_⟩
    simp only [killUnixPhases, execCmd, resultToExcept, h1, h2, targetPids] at heq ⊢
    rw [heq]
    simp [ExecResult.isOk, PState.mk.injEq, targetPids]
    try omega
  | err c0 =>
    obtain ⟨rs, hlen, heq⟩ := killPidsLoop_spec sys signal (targetPids out)
      false
      { time := s.time + 1 + 1,
        trace := s.trace ++ [Event.exec (broadKillCmd signal name)
          (ExecResult.err c0)] ++
          [Event.exec (pgrepFullCmd name) (ExecResult.ok out)] }
    refine ⟨rs, hlen, ?_⟩
    simp only [killUnixPhases, execCmd, resultToExcept, h1, h2, targetPids] at heq ⊢
    rw [heq]
    simp [ExecResult.isOk, PState.mk.injEq, targetPids]
    try omega

/-- Outcome of the kill phases when the pgrep enumeration throws the benign
exit code 1: the broad-kill flag is returned directly. -/
theorem killUnixPhases_noProc_eq (sys : Sys) (name signal : String)
    (s : PState)
    (h2 : sys (s.time + 1) (pgrepFullCmd name) = ExecResult.err (some 1)) :
    killUnixPhases sys name signal s =
      (PhaseOut.noProc (sys s.time (broadKillCmd signal name)).isOk,
       { time := s.time + 2,
         trace := s.trace ++
           [Event.exec (broadKillCmd signal name)
              (sys s.time (broadKillCmd signal name)),
            Event.exec (pgrepFullCmd name) (ExecResult.err (some 1))] }) := by
  cases h1 : sys s.time (broadKillCmd signal name) with
  | ok b0 =>
    simp [killUnixPhases, execCmd, resultToExcept, h1, h2,
      ExecResult.isOk, PState.mk.injEq]
    try omega
  | err c0 =>
    simp [killUnixPhases, execCmd, resultToExcept, h1, h2,
      ExecResult.isOk, PState.mk.injEq]
    try omega

/-- Outcome of the kill phases when the pgrep enumeration throws any other
error: the code is rethrown as a fatal failure. -/
theorem killUnixPhases_fatal_eq (sys : Sys) (name signal : String)
    (s : PState) (c : Option Int)
    (h2 : sys (s.time + 1) (pgrepFullCmd name) = ExecResult.err c)
    (hc : ¬c = some 1) :
    killUnixPhases sys name signal s =
      (PhaseOut.fatal c,
       { time := s.time + 2,
         trace := s.trace ++
           [Event.exec (broadKillCmd signal name)
              (sys s.time (broadKillCmd signal name)),
            Event.exec (pgrepFullCmd name) (ExecResult.err c)] }) := by
  cases h1 : sys s.time (broadKillCmd signal name) with
  | ok b0 =>
    simp [killUnixPhases, execCmd, resultToExcept, h1, h2, hc, PState.mk.injEq]
    try omega
  | err c0 =>
    simp [killUnixPhases, execCmd, resultToExcept, h1, h2, hc, PState.mk.injEq]
    try omega

/-- The kill phases report a fatal code only when it differs from the
benign exit code 1. -/
theorem killUnixPhases_fatal_code (sys : Sys) (name signal : String)
    (s : PState) (c : Option Int)
    (h : (killUnixPhases sys name signal s).1 = PhaseOut.fatal c) :
    ¬c = some 1 := by
  cases h2 : sys (s.time + 1) (pgrepFullCmd name) with
  | ok out =>
    obtain ⟨rs, _, heq⟩ := killUnixPhases_done_eq sys name signal s out h2
    rw [heq] at h
    simp at h
  | err c0 =>
    by_cases hc : c0 = some 1
    · rw [hc] at h2
      rw [killUnixPhases_noProc_eq sys name signal s h2] at h
      simp at h
    · rw [killUnixPhases_fatal_eq sys name signal s c0 h2 hc] at h
      simp at h
      rw [← h]
      exact hc

/-- The forced branch leaves exactly the state of its two kill phases: it
performs no settle delay, no re-probe and no recursion. -/
theorem killProcessUnixForced_snd (sys : Sys) (name : String) (s : PState) :
    (killProcessUnixForced sys name s).2 =
      (killUnixPhases sys name "-9" s).2 := by
  rcases hE : killUnixPhases sys name "-9" s with ⟨o, s1⟩
  cases o <;> simp [killProcessUnixForced, hE]

/-- An error escaping the forced branch never carries the benign exit
code 1, since that code is converted to a normal return by the catch. -/
theorem killProcessUnixForced_error_code (sys : Sys) (name : String)
    (s : PState) (c : Option Int)
    (h : (killProcessUnixForced sys name s).1 = Except.error c) :
    ¬c = some 1 := by
  rcases hE : killUnixPhases sys name "-9" s with ⟨o, s1⟩
  have hfst : (killUnixPhases sys name "-9" s).1 = o := by rw [hE]
  cases o with
  | fatal code =>
    have : code = c := by
      rw [killProcessUnixForced, hE] at h
      simpa using h
    exact this ▸ killUnixPhases_fatal_code sys name "-9" s code hfst
  | noProc killed => rw [killProcessUnixForced, hE] at h; simp at h
  | phasesDone killed => rw [killProcessUnixForced, hE] at h; simp at h

/-- Trace extension of the probe loop: it only appends dispatch events of
the patterns it was given. -/
theorem checkProcessUnixLoop_delta (sys : Sys) (name : String) :
    ∀ (ps : List String) (s : PState),
      ∃ t, (checkProcessUnixLoop sys name ps s).2.trace = s.trace ++ t ∧
        ∀ e ∈ t, ∃ p r, p ∈ ps ∧ e = Event.exec p r := by
  intro ps
  induction ps with
  | nil => intro s; exact ⟨[], by simp [checkProcessUnixLoop], by simp⟩
  | cons p rest ih =>
    intro s
    cases h : sys s.time p with
    | ok out =>
      by_cases hp : 0 < (probePids out).length
      · refine ⟨[Event.exec p (ExecResult.ok out)], ?_, ?_⟩
        · simp [checkProcessUnixLoop, execCmd, resultToExcept, h,
            probePids, hp] at hp ⊢
          simp [hp]
        · intro e he
          simp at he
          exact ⟨p, ExecResult.ok out, by simp, he⟩
      · obtain ⟨t, ht, hmem⟩ := ih
          { time := s.time + 1,
            trace := s.trace ++ [Event.exec p (ExecResult.ok out)] }
        refine ⟨Event.exec p (ExecResult.ok out) :: t, ?_, ?_⟩
        · simp only [checkProcessUnixLoop, execCmd, resultToExcept, h]
          rw [if_neg (by simpa [probePids] using hp)]
          rw [ht]
          simp
        · intro e he
          rcases List.mem_cons.mp he with he | he
          · exact ⟨p, ExecResult.ok out, by simp, he⟩
          · obtain ⟨q, r, hq, he⟩ := hmem e he
            exact ⟨q, r, by simp [hq], he⟩
    | err c =>
      obtain ⟨t, ht, hmem⟩ := ih
        { time := s.time + 1,
          trace := s.trace ++ [Event.exec p (ExecResult.err c)] }
      refine ⟨Event.exec p (ExecResult.err c) :: t, ?_, ?_⟩
      · simp only [checkProcessUnixLoop, execCmd, resultToExcept, h]
        rw [ht]
        simp
      · intro e he
        rcases List.mem_cons.mp he with he | he
        · exact ⟨p, ExecResult.err c, by simp, he⟩
        · obtain ⟨q, r, hq, he⟩ := hmem e he
          exact ⟨q, r, by simp [hq], he⟩

/-- The probe loop always reports the queried name and never fills the
optional command field. -/
theorem checkProcessUnixLoop_fields (sys : Sys) (name : String) :
    ∀ (ps : List String) (s : PState),
      (checkProcessUnixLoop sys name ps s).1.name = name ∧
      (checkProcessUnixLoop sys name ps s).1.command = none := by
  intro ps
  induction ps with
  | nil => intro s; simp [checkProcessUnixLoop]
  | cons p rest ih =>
    intro s
    cases h : sys s.time p with
    | ok out =>
      by_cases hp : 0 < (probePids out).length
      · simp [checkProcessUnixLoop, execCmd, resultToExcept, h, probePids] at hp ⊢
        simp [hp]
      · simp only [checkProcessUnixLoop, execCmd, resultToExcept, h]
        rw [if_neg (by simpa [probePids] using hp)]
        exact ih _
    | err c =>
      simp only [checkProcessUnixLoop, execCmd, resultToExcept, h]
      exact ih _

/-- When the probe loop reports not running, the result is exactly the
sentinel record for the queried name. -/
theorem checkProcessUnixLoop_not_running (sys : Sys) (name : String) :
    ∀ (ps : List String) (s : PState),
      (checkProcessUnixLoop sys name ps s).1.running = false →
      (checkProcessUnixLoop sys name ps s).1 =
        { name := name, pid := some (-1), running := false } := by
  intro ps
  induction ps with
  | nil => intro s _; simp [checkProcessUnixLoop]
  | cons p rest ih =>
    intro s hr
    cases h : sys s.time p with
    | ok out =>
      by_cases hp : 0 < (probePids out).length
      · rw [checkProcessUnixLoop] at hr
        simp only [execCmd, resultToExcept, h] at hr
        rw [if_pos (by simpa [probePids] using hp)] at hr
        simp at hr
      · simp only [checkProcessUnixLoop, execCmd, resultToExcept, h] at hr ⊢
        rw [if_neg (by simpa [probePids] using hp)] at hr ⊢
        exact ih _ hr
    | err c =>
      simp only [checkProcessUnixLoop, execCmd, resultToExcept, h] at hr ⊢
      exact ih _ hr

/-- Two strings differing at some character position are different. -/
theorem string_ne_of_get (a b : String) (i : Nat)
    (h : ¬a.data[i]? = b.data[i]?) : ¬a = b :=
  fun e => h (by rw [e])

/-- A targeted kill command is never the broad-kill command: they differ at
the fifth character already. -/
theorem killPidCmd_ne_broad (sig pid sig2 nm : String) :
    ¬killPidCmd sig pid = broadKillCmd sig2 nm := by
  apply string_ne_of_get _ _ 4
  simp only [killPidCmd, broadKillCmd, String.data_append, List.append_assoc]
  rw [List.getElem?_append_left (by decide : (4 : Nat) < "kill ".data.length),
    List.getElem?_append_left (by decide : (4 : Nat) < "killall ".data.length)]
  decide

/-- A string whose first character is the letter p is never the broad-kill
command, whose first character is the letter k. -/
theorem ne_broad_of_head_p (q sig2 nm2 : String)
    (hq : q.data[0]? = some 'p') : ¬q = broadKillCmd sig2 nm2 := by
  apply string_ne_of_get _ _ 0
  rw [hq]
  simp only [broadKillCmd, String.data_append, List.append_assoc]
  rw [List.getElem?_append_left (by decide : (0 : Nat) < "killall ".data.length)]
  decide

/-- A pgrep probe pattern is never the broad-kill command: the first
characters differ. -/
theorem unixPattern_ne_broad (nm p sig2 nm2 : String)
    (hp : p ∈ unixPatterns nm) : ¬p = broadKillCmd sig2 nm2 := by
  simp only [unixPatterns, List.mem_cons, List.not_mem_nil, or_false] at hp
  rcases hp with hp | hp | hp
  · refine ne_broad_of_head_p _ _ _ ?_
    simp only [hp, pgrepFullCmd, String.data_append, List.append_assoc]
    rw [List.getElem?_append_left (by decide : (0 : Nat) < "pgrep -f \"".data.length)]
    decide
  · refine ne_broad_of_head_p _ _ _ ?_
    simp only [hp, pgrepExactCmd, String.data_append, List.append_assoc]
    rw [List.getElem?_append_left (by decide : (0 : Nat) < "pgrep -x \"".data.length)]
    decide
  · refine ne_broad_of_head_p _ _ _ ?_
    simp only [hp, pgrepPathCmd, String.data_append, List.append_assoc]
    rw [List.getElem?_append_left (by decide : (0 : Nat) < "pgrep -f \"/.*".data.length)]
    decide

/-- The same disequality for the enumeration command of the kill phases. -/
theorem pgrepFullCmd_ne_broad (nm sig2 nm2 : String) :
    ¬pgrepFullCmd nm = broadKillCmd sig2 nm2 :=
  unixPattern_ne_broad nm (pgrepFullCmd nm) sig2 nm2 (by simp [unixPatterns])

/-- The graceful and forced broad-kill commands differ: the signal text
diverges at the tenth character. -/
theorem broad15_ne_broad9 (nm nm2 : String) :
    ¬broadKillCmd "-15" nm = broadKillCmd "-9" nm2 := by
  apply string_ne_of_get _ _ 9
  simp only [broadKillCmd, String.data_append, List.append_assoc]
  rw [List.getElem?_append_right (by decide : "killall ".data.length ≤ 9),
    List.getElem?_append_right (by decide : "killall ".data.length ≤ 9)]
  rw [List.getElem?_append_left (by decide :
      (9 - "killall ".data.length : Nat) < "-15".data.length),
    List.getElem?_append_left (by decide :
      (9 - "killall ".data.length : Nat) < "-9".data.length)]
  decide

/-- A trace of pure dispatch events contains no sleep. -/
theorem sleepCount_eq_zero (t : List Event)
    (h : ∀ e ∈ t, ∃ c r, e = Event.exec c r) : sleepCount t = 0 := by
  rw [sleepCount, List.countP_eq_zero]
  intro e he
  obtain ⟨c, r, rfl⟩ := h e he
  simp

/-- A trace whose dispatch events all use other commands contributes
nothing to the count of a command. -/
theorem execCount_eq_zero (cmd : String) (t : List Event)
    (h : ∀ e ∈ t, ∃ c r, e = Event.exec c r ∧ ¬c = cmd) :
    execCount cmd t = 0 := by
  rw [execCount, List.countP_eq_zero]
  intro e he
  obtain ⟨c, r, rfl, hc⟩ := h e he
  simp [hc]

/-- Trace extension and event counts of the kill phases: one broad-kill
dispatch, no sleep, and otherwise only pgrep and per-pid kill dispatches. -/
theorem killUnixPhases_trace_counts (sys : Sys) (name signal : String)
    (s : PState) (cmd : String)
    (hp : ¬pgrepFullCmd name = cmd)
    (hk : ∀ pd, ¬killPidCmd signal pd = cmd) :
    ∃ t, (killUnixPhases sys name signal s).2.trace = s.trace ++ t ∧
      execCount cmd t = (if broadKillCmd signal name = cmd then 1 else 0) ∧
      sleepCount t = 0 := by
  cases h2 : sys (s.time + 1) (pgrepFullCmd name) with
  | ok out =>
    obtain ⟨rs, hlen, heq⟩ := killUnixPhases_done_eq sys name signal s out h2
    refine ⟨[Event.exec (broadKillCmd signal name)
        (sys s.time (broadKillCmd signal name)),
      Event.exec (pgrepFullCmd name) (ExecResult.ok out)] ++
        killEvents signal (targetPids out) rs, ?_, ?_, ?_⟩
    · rw [heq]; simp
    · have hz : execCount cmd (killEvents signal (targetPids out) rs) = 0 :=
        execCount_eq_zero cmd _ (by
          intro e he
          obtain ⟨pd, r, rfl⟩ := killEvents_mem signal (targetPids out) rs e he
          exact ⟨killPidCmd signal pd, r, rfl, hk pd⟩)
      rw [execCount] at hz
      by_cases hb : broadKillCmd signal name = cmd
      · rw [execCount]
        simp [List.countP_append, List.countP_cons, beq_iff_eq, hp, hb, hz]
      · rw [execCount]
        simp [List.countP_append, List.countP_cons, beq_iff_eq, hp, hb, hz]
    · have hz : sleepCount (killEvents signal (targetPids out) rs) = 0 :=
        sleepCount_eq_zero _ (by
          intro e he
          obtain ⟨pd, r, rfl⟩ := killEvents_mem signal (targetPids out) rs e he
          exact ⟨killPidCmd signal pd, r, rfl⟩)
      rw [sleepCount] at hz ⊢
      simp [List.countP_append, List.countP_cons, hz]
  | err c0 =>
    by_cases hc : c0 = some 1
    · subst hc
      rw [killUnixPhases_noProc_eq sys name signal s h2]
      refine ⟨[Event.exec (broadKillCmd signal name)
          (sys s.time (broadKillCmd signal name)),
        Event.exec (pgrepFullCmd name) (ExecResult.err (some 1))], by simp, ?_, ?_⟩
      · by_cases hb : broadKillCmd signal name = cmd <;>
          simp [execCount, List.countP_cons, hp, hb]
      · simp [sleepCount, List.countP_cons]
    · rw [killUnixPhases_fatal_eq sys name signal s c0 h2 hc]
      refine ⟨[Event.exec (broadKillCmd signal name)
          (sys s.time (broadKillCmd signal name)),
        Event.exec (pgrepFullCmd name) (ExecResult.err c0)], by simp, ?_, ?_⟩
      · by_cases hb : broadKillCmd signal name = cmd <;>
          simp [execCount, List.countP_cons, hp, hb]
      · simp [sleepCount, List.countP_cons]

/-- When the phases of a graceful call complete and the re-probe after the
settle delay still reports the process running, the whole graceful call is
the forced call started from the post-re-probe state: outcome and final
state alike. -/
theorem killProcessUnixGraceful_escalation_eq (sys : Sys) (name : String)
    (s : PState) (killed : Bool)
    (hP : (killUnixPhases sys name "-15" s).1 = PhaseOut.phasesDone killed)
    (hR : (checkProcessUnix sys name
      (sleepFor 1000 (killUnixPhases sys name "-15" s).2)).1.running = true) :
    killProcessUnixGraceful sys name s =
      killProcessUnixForced sys name
        (checkProcessUnix sys name
          (sleepFor 1000 (killUnixPhases sys name "-15" s).2)).2 := by
  rcases hE : killUnixPhases sys name "-15" s with ⟨o, s1⟩
  rw [hE] at hP hR
  simp only at hP hR
  subst hP
  rw [killProcessUnixGraceful, hE]
  simp only
  rcases hC : checkProcessUnix sys name (sleepFor 1000 s1) with ⟨info, s3⟩
  rw [hC] at hR
  simp only at hR
  rw [hR]
  simp only [if_true]
  rcases hF : killProcessUnixForced sys name s3 with ⟨r4, s4⟩
  cases r4 with
  | ok b => simp
  | error c =>
    have hc : ¬c = some 1 :=
      killProcessUnixForced_error_code sys name s3 c (by rw [hF])
    simp [hc]

/-- C2: on non-Windows, a graceful terminate call whose broad-kill and
targeted-kill phases completed waits the fixed 1000 ms settle delay and
re-probes the same name; when the re-probe still reports running, the call
invokes the forced protocol and returns the outcome and state of that
forced invocation in place of its own; in the trace, the broad-kill dispatch strictly
precedes the targeted-kill dispatches, which strictly precede the sleep
event, the re-probe dispatches and the forced retry, in this order. -/
theorem terminate_graceful_settle_then_escalate (sys : Sys) (name : String)
    (s : PState) (killed : Bool)
    (hP : (killUnixPhases sys name "-15" s).1 = PhaseOut.phasesDone killed)
    (hR : (checkProcessUnix sys name
      (sleepFor 1000 (killUnixPhases sys name "-15" s).2)).1.running = true) :
    killProcessUnix sys name false s =
      killProcessUnixForced sys name
        (checkProcessUnix sys name
          (sleepFor 1000 (killUnixPhases sys name "-15" s).2)).2
    ∧ ∃ tKill tProbe tForced,
        (killUnixPhases sys name "-15" s).2.trace =
          s.trace ++
            [Event.exec (broadKillCmd "-15" name)
               (sys s.time (broadKillCmd "-15" name)),
             Event.exec (pgrepFullCmd name)
               (sys (s.time + 1) (pgrepFullCmd name))] ++ tKill
        ∧ (∀ e ∈ tKill, ∃ pd r, e = Event.exec (killPidCmd "-15" pd) r)
        ∧ (checkProcessUnix sys name
             (sleepFor 1000 (killUnixPhases sys name "-15" s).2)).2.trace =
            (killUnixPhases sys name "-15" s).2.trace ++
              [Event.sleep 1000] ++ tProbe
        ∧ (∀ e ∈ tProbe, ∃ p r, p ∈ unixPatterns name ∧ e = Event.exec p r)
        ∧ (killProcessUnix sys name false s).2.trace =
            (checkProcessUnix sys name
              (sleepFor 1000 (killUnixPhases sys name "-15" s).2)).2.trace
              ++ tForced := by
  have hmain : killProcessUnix sys name false s =
      killProcessUnixForced sys name
        (checkProcessUnix sys name
          (sleepFor 1000 (killUnixPhases sys name "-15" s).2)).2 := by
    rw [show killProcessUnix sys name false s =
        killProcessUnixGraceful sys name s from by rw [killProcessUnix]; simp]
    exact killProcessUnixGraceful_escalation_eq sys name s killed hP hR
  refine ⟨hmain, ?_⟩
  cases h2 : sys (s.time + 1) (pgrepFullCmd name) with
  | err c0 =>
    exfalso
    by_cases hc : c0 = some 1
    · subst hc
      rw [killUnixPhases_noProc_eq sys name "-15" s h2] at hP
      simp at hP
    · rw [killUnixPhases_fatal_eq sys name "-15" s c0 h2 hc] at hP
      simp at hP
  | ok out =>
    obtain ⟨rs, hlen, heq⟩ := killUnixPhases_done_eq sys name "-15" s out h2
    obtain ⟨tP, htP, hmemP⟩ := checkProcessUnixLoop_delta sys name
      (unixPatterns name) (sleepFor 1000 (killUnixPhases sys name "-15" s).2)
    obtain ⟨tF, htF, _, _⟩ := killUnixPhases_trace_counts sys name "-9"
      (checkProcessUnix sys name
        (sleepFor 1000 (killUnixPhases sys name "-15" s).2)).2
      (broadKillCmd "-9" name)
      (pgrepFullCmd_ne_broad name "-9" name)
      (fun pd => killPidCmd_ne_broad "-9" pd "-9" name)
    refine ⟨killEvents "-15" (targetPids out) rs, tP, tF, ?_, ?_, ?_, ?_, ?_⟩
    · rw [heq]
    · exact killEvents_mem "-15" (targetPids out) rs
    · have hcp : checkProcessUnix sys name
          (sleepFor 1000 (killUnixPhases sys name "-15" s).2) =
          checkProcessUnixLoop sys name (unixPatterns name)
            (sleepFor 1000 (killUnixPhases sys name "-15" s).2) := rfl
      rw [hcp, htP]
      simp [sleepFor]
    · exact hmemP
    · rw [hmain, killProcessUnixForced_snd, htF]

/-- C2 witness: on the oracle sysEsc, the graceful call completes its
phases, the re-probe still reports running, and the call returns the
outcome and state of the forced invocation. -/
theorem terminate_graceful_settle_then_escalate_witness :
    (killUnixPhases sysEsc "x" "-15" initState).1 = PhaseOut.phasesDone true
    ∧ (checkProcessUnix sysEsc "x"
        (sleepFor 1000 (killUnixPhases sysEsc "x" "-15" initState).2)).1.running
        = true
    ∧ killProcessUnix sysEsc "x" false initState =
        killProcessUnixForced sysEsc "x"
          (checkProcessUnix sysEsc "x"
            (sleepFor 1000 (killUnixPhases sysEsc "x" "-15" initState).2)).2 :=
  ⟨by decide, by decide,
    (terminate_graceful_settle_then_escalate sysEsc "x" initState true
      (by decide) (by decide)).1⟩

/-- C3: a forced terminate call performs exactly one phase pair, with one
forced broad-kill dispatch and no settle delay in its trace; a graceful
call whose target survives the settle delay escalates exactly once: its
outcome is the outcome of the forced invocation, and its whole trace holds
exactly one forced broad-kill dispatch and exactly one sleep event. -/
theorem terminate_escalates_at_most_once (sys : Sys) (name : String)
    (s : PState) (killed : Bool)
    (hP : (killUnixPhases sys name "-15" s).1 = PhaseOut.phasesDone killed)
    (hR : (checkProcessUnix sys name
      (sleepFor 1000 (killUnixPhases sys name "-15" s).2)).1.running = true) :
    (∀ s0 : PState, ∃ t,
        (killProcessUnix sys name true s0).2.trace = s0.trace ++ t ∧
        execCount (broadKillCmd "-9" name) t = 1 ∧ sleepCount t = 0)
    ∧ (killProcessUnix sys name false s).1 =
        (killProcessUnixForced sys name
          (checkProcessUnix sys name
            (sleepFor 1000 (killUnixPhases sys name "-15" s).2)).2).1
    ∧ ∃ t, (killProcessUnix sys name false s).2.trace = s.trace ++ t ∧
        execCount (broadKillCmd "-9" name) t = 1 ∧ sleepCount t = 1 := by
  have hforced : ∀ s0 : PState, ∃ t,
      (killProcessUnix sys name true s0).2.trace = s0.trace ++ t ∧
      execCount (broadKillCmd "-9" name) t = 1 ∧ sleepCount t = 0 := by
    intro s0
    obtain ⟨t, ht, hcnt, hsl⟩ := killUnixPhases_trace_counts sys name "-9" s0
      (broadKillCmd "-9" name)
      (pgrepFullCmd_ne_broad name "-9" name)
      (fun pd => killPidCmd_ne_broad "-9" pd "-9" name)
    refine ⟨t, ?_, by simpa using hcnt, hsl⟩
    rw [show killProcessUnix sys name true s0 =
        killProcessUnixForced sys name s0 from by rw [killProcessUnix]; simp]
    rw [killProcessUnixForced_snd]
    exact ht
  have hmain : killProcessUnix sys name false s =
      killProcessUnixForced sys name
        (checkProcessUnix sys name
          (sleepFor 1000 (killUnixPhases sys name "-15" s).2)).2 := by
    rw [show killProcessUnix sys name false s =
        killProcessUnixGraceful sys name s from by rw [killProcessUnix]; simp]
    exact killProcessUnixGraceful_escalation_eq sys name s killed hP hR
  refine ⟨hforced, by rw [hmain], ?_⟩
  obtain ⟨t15, ht15, hcnt15, hsl15⟩ := killUnixPhases_trace_counts sys name
    "-15" s (broadKillCmd "-9" name)
    (pgrepFullCmd_ne_broad name "-9" name)
    (fun pd => killPidCmd_ne_broad "-15" pd "-9" name)
  obtain ⟨tP, htP, hmemP⟩ := checkProcessUnixLoop_delta sys name
    (unixPatterns name) (sleepFor 1000 (killUnixPhases sys name "-15" s).2)
  obtain ⟨tF, htF, hcntF, hslF⟩ := killUnixPhases_trace_counts sys name "-9"
    (checkProcessUnix sys name
      (sleepFor 1000 (killUnixPhases sys name "-15" s).2)).2
    (broadKillCmd "-9" name)
    (pgrepFullCmd_ne_broad name "-9" name)
    (fun pd => killPidCmd_ne_broad "-9" pd "-9" name)
  refine ⟨t15 ++ [Event.sleep 1000] ++ tP ++ tF, ?_, ?_, ?_⟩
  · have hcp : checkProcessUnix sys name
        (sleepFor 1000 (killUnixPhases sys name "-15" s).2) =
        checkProcessUnixLoop sys name (unixPatterns name)
          (sleepFor 1000 (killUnixPhases sys name "-15" s).2) := rfl
    rw [hmain, killProcessUnixForced_snd, htF, hcp, htP]
    simp [sleepFor, ht15]
  · have hP0 : execCount (broadKillCmd "-9" name) tP = 0 :=
      execCount_eq_zero _ _ (by
        intro e he
        obtain ⟨p, r, hpmem, rfl⟩ := hmemP e he
        exact ⟨p, r, rfl, unixPattern_ne_broad name p "-9" name hpmem⟩)
    have h15 : execCount (broadKillCmd "-9" name) t15 = 0 := by
      rw [hcnt15, if_neg (broad15_ne_broad9 name name)]
    rw [execCount] at hP0 h15 hcntF ⊢
    simp [List.countP_append, hP0, h15]
    rw [if_pos rfl] at hcntF
    simpa [execCount] using hcntF
  · rw [sleepCount] at hsl15 hslF ⊢
    have hPsl : sleepCount tP = 0 :=
      sleepCount_eq_zero _ (by
        intro e he
        obtain ⟨p, r, _, rfl⟩ := hmemP e he
        exact ⟨p, r, rfl⟩)
    rw [sleepCount] at hPsl
    simp [List.countP_append, hsl15, hslF, hPsl]

/-- C3 witness: on the oracle sysEsc the escalating graceful call returns
the forced outcome, and its trace holds exactly one forced broad-kill
dispatch and exactly one settle sleep. -/
theorem terminate_escalates_at_most_once_witness :
    (killUnixPhases sysEsc "x" "-15" initState).1 = PhaseOut.phasesDone true
    ∧ ∃ t, (killProcessUnix sysEsc "x" false initState).2.trace =
        initState.trace ++ t ∧
        execCount (broadKillCmd "-9" "x") t = 1 ∧ sleepCount t = 1 :=
  ⟨by decide,
    (terminate_escalates_at_most_once sysEsc "x" initState true
      (by decide) (by decide)).2.2⟩

/-- One step of the probe loop on a failing strategy: the loop records the
dispatch and moves on to the remaining patterns. -/
theorem checkProcessUnixLoop_step_fail (sys : Sys) (name p : String)
    (rest : List String) (s : PState)
    (hf : stratFails (sys s.time p) = true) :
    checkProcessUnixLoop sys name (p :: rest) s =
      checkProcessUnixLoop sys name rest
        { time := s.time + 1,
          trace := s.trace ++ [Event.exec p (sys s.time p)] } := by
  cases h : sys s.time p with
  | ok out =>
    rw [h] at hf
    have hemp : probePids out = [] := by simpa [stratFails] using hf
    simp only [probePids] at hemp
    simp only [checkProcessUnixLoop, execCmd, resultToExcept, h]
    rw [if_neg (by simp [hemp])]
  | err c =>
    simp only [checkProcessUnixLoop, execCmd, resultToExcept, h]

/-- One step of the probe loop on a strategy that matches: the loop stops
and reports running with the first matched pid. -/
theorem checkProcessUnixLoop_step_hit (sys : Sys) (name p : String)
    (rest : List String) (s : PState) (out : String)
    (h : sys s.time p = ExecResult.ok out) (hne : ¬probePids out = []) :
    checkProcessUnixLoop sys name (p :: rest) s =
      ({ name := name, pid := parseIntJS ((probePids out).headD ""),
         running := true },
       { time := s.time + 1,
         trace := s.trace ++ [Event.exec p (ExecResult.ok out)] }) := by
  simp only [checkProcessUnixLoop, execCmd, resultToExcept, h]
  rw [if_pos]
  · simp [probePids]
  · simp only [probePids] at hne
    simpa [List.length_pos] using hne

/-- C4 counterexample: when the underlying listing itself reports the
literal text -1 as a pid, the probe returns pid -1 together with running
true, so the claimed equivalence of pid -1 with not running fails. -/
theorem probe_pid_sentinel_counterexample :
    (checkProcessUnix sysNegPid "x" initState).1.pid = some (-1)
    ∧ (checkProcessUnix sysNegPid "x" initState).1.running = true :=
  ⟨by decide, by decide⟩

/-- C4 amended: the probe never raises by construction, and on both
platform branches a not-running report always carries the sentinel pid -1
and no command text; the converse direction, pid -1 implying not running,
can fail when the listing itself prints -1. -/
theorem probe_not_running_sentinel (sys : Sys) (name : String) (s : PState) :
    ((checkProcessWindows sys name s).1.running = false →
      (checkProcessWindows sys name s).1 =
        { name := name, pid := some (-1), running := false })
    ∧ ((checkProcessUnix sys name s).1.running = false →
      (checkProcessUnix sys name s).1 =
        { name := name, pid := some (-1), running := false }) := by
  constructor
  · intro h
    cases hr : sys s.time (tasklistCmd name) with
    | ok out =>
      simp only [checkProcessWindows, execCmd, resultToExcept, hr] at h ⊢
      by_cases hcond : 0 < (jsSplit (jsTrim out) "\r\n").length ∧
          jsIncludes ((jsSplit (jsTrim out) "\r\n").headD "") name = true
      · rw [if_pos hcond] at h
        simp at h
      · rw [if_neg hcond] at h ⊢
    | err c =>
      simp [checkProcessWindows, execCmd, resultToExcept, hr]
  · exact checkProcessUnixLoop_not_running sys name (unixPatterns name) s

/-- C4 witness: on an oracle where every command fails, the probe reports
not running and the full sentinel record. -/
theorem probe_not_running_sentinel_witness :
    (checkProcessUnix sysErrAll "ghost" initState).1.running = false
    ∧ (checkProcessUnix sysErrAll "ghost" initState).1 =
        { name := "ghost", pid := some (-1), running := false } :=
  ⟨by decide,
    (probe_not_running_sentinel sysErrAll "ghost" initState).2 (by decide)⟩

/-- C5 counterexample: the broad kill fails, the enumeration matches pid
4242 and the targeted dispatch to it fails too, so the call returns false
although a process matched; the trace shows the dispatched kill. -/
theorem terminate_unix_false_despite_match_counterexample :
    (killProcessUnix sysMatchFail "x" true initState).1 = Except.ok false
    ∧ sysMatchFail 1 (pgrepFullCmd "x") = ExecResult.ok "4242"
    ∧ Event.exec (killPidCmd "-9" "4242") (ExecResult.err (some 1)) ∈
        (killProcessUnix sysMatchFail "x" true initState).2.trace :=
  ⟨by decide, by decide, by decide⟩

/-- C5 amended: when the enumeration succeeds, a forced terminate returns
true exactly when the broad-kill dispatch succeeded or at least one
targeted per-pid dispatch succeeded, and false otherwise, even if pids
matched; every enumerated pid receives exactly one targeted dispatch, in
order, regardless of failures among the other pids. -/
theorem terminate_unix_outcome_spec (sys : Sys) (name : String) (s : PState)
    (out : String)
    (hG : sys (s.time + 1) (pgrepFullCmd name) = ExecResult.ok out) :
    ∃ rs : List ExecResult, rs.length = (targetPids out).length ∧
      killProcessUnix sys name true s =
        (Except.ok ((sys s.time (broadKillCmd "-9" name)).isOk ||
           rs.any ExecResult.isOk),
         { time := s.time + 2 + (targetPids out).length,
           trace := s.trace ++
             [Event.exec (broadKillCmd "-9" name)
                (sys s.time (broadKillCmd "-9" name)),
              Event.exec (pgrepFullCmd name) (ExecResult.ok out)] ++
             killEvents "-9" (targetPids out) rs }) := by
  obtain ⟨rs, hlen, heq⟩ := killUnixPhases_done_eq sys name "-9" s out hG
  refine ⟨rs, hlen, ?_⟩
  rw [show killProcessUnix sys name true s =
      killProcessUnixForced sys name s from by rw [killProcessUnix]; simp]
  rw [killProcessUnixForced, heq]

/-- C5 witness: broad kill failing, pids 7 and 8 matched, the dispatch to 7
failing and the dispatch to 8 succeeding still yields outcome true with
both pids signalled. -/
theorem terminate_unix_outcome_spec_witness :
    sysTwoPids (initState.time + 1) (pgrepFullCmd "x") =
      ExecResult.ok "7\n8"
    ∧ ∃ rs : List ExecResult, rs.length = (targetPids "7\n8").length ∧
      killProcessUnix sysTwoPids "x" true initState =
        (Except.ok ((sysTwoPids initState.time (broadKillCmd "-9" "x")).isOk ||
           rs.any ExecResult.isOk),
         { time := initState.time + 2 + (targetPids "7\n8").length,
           trace := initState.trace ++
             [Event.exec (broadKillCmd "-9" "x")
                (sysTwoPids initState.time (broadKillCmd "-9" "x")),
              Event.exec (pgrepFullCmd "x") (ExecResult.ok "7\n8")] ++
             killEvents "-9" (targetPids "7\n8") rs }) :=
  ⟨by decide,
    terminate_unix_outcome_spec sysTwoPids "x" initState "7\n8" (by decide)⟩

/-- C6: the Windows terminate issues one taskkill against the image name,
with the forced flag exactly when force is on; success returns true, the
image-not-found code 128 is benign and returns false, and any other thrown
code propagates as an error. -/
theorem killProcessWindows_spec (sys : Sys) (name : String) (force : Bool)
    (s : PState) :
    (∀ out, sys s.time (taskkillCmd name force) = ExecResult.ok out →
      killProcessWindows sys name force s =
        (Except.ok true,
         { time := s.time + 1,
           trace := s.trace ++
             [Event.exec (taskkillCmd name force) (ExecResult.ok out)] }))
    ∧ (sys s.time (taskkillCmd name force) = ExecResult.err (some 128) →
      killProcessWindows sys name force s =
        (Except.ok false,
         { time := s.time + 1,
           trace := s.trace ++
             [Event.exec (taskkillCmd name force)
                (ExecResult.err (some 128))] }))
    ∧ (∀ c, ¬c = some 128 →
      sys s.time (taskkillCmd name force) = ExecResult.err c →
      killProcessWindows sys name force s =
        (Except.error c,
         { time := s.time + 1,
           trace := s.trace ++
             [Event.exec (taskkillCmd name force) (ExecResult.err c)] }))
    ∧ taskkillCmd name true = "taskkill /F /IM \"" ++ name ++ ".exe\""
    ∧ taskkillCmd name false = "taskkill  /IM \"" ++ name ++ ".exe\"" := by
  refine ⟨?_, ?_, ?_, ?_, ?_⟩
  · intro out h
    simp [killProcessWindows, execCmd, resultToExcept, h]
  · intro h
    simp [killProcessWindows, execCmd, resultToExcept, h]
  · intro c hc h
    simp [killProcessWindows, execCmd, resultToExcept, h, hc]
  · apply String.ext
    simp [taskkillCmd, String.data_append, List.append_assoc]
  · apply String.ext
    simp [taskkillCmd, String.data_append, List.append_assoc]

/-- C6 witness: a taskkill rejected with exit code 128 yields the benign
false outcome. -/
theorem killProcessWindows_spec_witness :
    sys128 initState.time (taskkillCmd "x" false) = ExecResult.err (some 128)
    ∧ killProcessWindows sys128 "x" false initState =
        (Except.ok false,
         { time := initState.time + 1,
           trace := initState.trace ++
             [Event.exec (taskkillCmd "x" false)
                (ExecResult.err (some 128))] }) :=
  ⟨by decide, (killProcessWindows_spec sys128 "x" false initState).2.1 (by decide)⟩

/-- C7: the non-Windows probe tries the substring, exact-name and
path-qualified pgrep strategies in this fixed order, stops at the first
strategy with at least one usable pid and takes its first pid as the
result; a failing or empty strategy does not abort the remaining ones, and
when all three yield nothing the probe reports not running after having
dispatched all three. -/
theorem checkProcessUnix_strategy_order (sys : Sys) (name : String)
    (s : PState) :
    (∀ out, sys s.time (pgrepFullCmd name) = ExecResult.ok out →
      ¬probePids out = [] →
      checkProcessUnix sys name s =
        ({ name := name, pid := parseIntJS ((probePids out).headD ""),
           running := true },
         { time := s.time + 1,
           trace := s.trace ++
             [Event.exec (pgrepFullCmd name) (ExecResult.ok out)] }))
    ∧ (∀ out2, stratFails (sys s.time (pgrepFullCmd name)) = true →
      sys (s.time + 1) (pgrepExactCmd name) = ExecResult.ok out2 →
      ¬probePids out2 = [] →
      checkProcessUnix sys name s =
        ({ name := name, pid := parseIntJS ((probePids out2).headD ""),
           running := true },
         { time := s.time + 2,
           trace := s.trace ++
             [Event.exec (pgrepFullCmd name) (sys s.time (pgrepFullCmd name)),
              Event.exec (pgrepExactCmd name) (ExecResult.ok out2)] }))
    ∧ (∀ out3, stratFails (sys s.time (pgrepFullCmd name)) = true →
      stratFails (sys (s.time + 1) (pgrepExactCmd name)) = true →
      sys (s.time + 2) (pgrepPathCmd name) = ExecResult.ok out3 →
      ¬probePids out3 = [] →
      checkProcessUnix sys name s =
        ({ name := name, pid := parseIntJS ((probePids out3).headD ""),
           running := true },
         { time := s.time + 3,
           trace := s.trace ++
             [Event.exec (pgrepFullCmd name) (sys s.time (pgrepFullCmd name)),
              Event.exec (pgrepExactCmd name)
                (sys (s.time + 1) (pgrepExactCmd name)),
              Event.exec (pgrepPathCmd name) (ExecResult.ok out3)] }))
    ∧ (stratFails (sys s.time (pgrepFullCmd name)) = true →
      stratFails (sys (s.time + 1) (pgrepExactCmd name)) = true →
      stratFails (sys (s.time + 2) (pgrepPathCmd name)) = true →
      checkProcessUnix sys name s =
        ({ name := name, pid := some (-1), running := false },
         { time := s.time + 3,
           trace := s.trace ++
             [Event.exec (pgrepFullCmd name) (sys s.time (pgrepFullCmd name)),
              Event.exec (pgrepExactCmd name)
                (sys (s.time + 1) (pgrepExactCmd name)),
              Event.exec (pgrepPathCmd name)
                (sys (s.time + 2) (pgrepPathCmd name))] })) := by
  have hcp : checkProcessUnix sys name s =
      checkProcessUnixLoop sys name (unixPatterns name) s := rfl
  refine ⟨?_, ?_, ?_, ?_⟩
  · intro out h hne
    rw [hcp, unixPatterns, checkProcessUnixLoop_step_hit sys name _ _ s out h hne]
  · intro out2 hf1 h2 hne2
    rw [hcp, unixPatterns, checkProcessUnixLoop_step_fail sys name _ _ s hf1,
      checkProcessUnixLoop_step_hit sys name _ _ _ out2 h2 hne2]
    simp
  · intro out3 hf1 hf2 h3 hne3
    rw [hcp, unixPatterns, checkProcessUnixLoop_step_fail sys name _ _ s hf1,
      checkProcessUnixLoop_step_fail sys name _ _ _ hf2,
      checkProcessUnixLoop_step_hit sys name _ _ _ out3 h3 hne3]
    simp
  · intro hf1 hf2 hf3
    rw [hcp, unixPatterns, checkProcessUnixLoop_step_fail sys name _ _ s hf1,
      checkProcessUnixLoop_step_fail sys name _ _ _ hf2,
      checkProcessUnixLoop_step_fail sys name _ _ _ hf3]
    simp [checkProcessUnixLoop]

/-- C7 witness: the first strategy fails with an error, the second matches
pid 55, and the probe reports running with pid 55 after two dispatches. -/
theorem checkProcessUnix_strategy_order_witness :
    stratFails (sysSecondStrategy initState.time (pgrepFullCmd "x")) = true
    ∧ sysSecondStrategy (initState.time + 1) (pgrepExactCmd "x") =
        ExecResult.ok "55"
    ∧ ¬probePids "55" = []
    ∧ checkProcessUnix sysSecondStrategy "x" initState =
        ({ name := "x", pid := parseIntJS ((probePids "55").headD ""),
           running := true },
         { time := initState.time + 2,
           trace := initState.trace ++
             [Event.exec (pgrepFullCmd "x")
                (sysSecondStrategy initState.time (pgrepFullCmd "x")),
              Event.exec (pgrepExactCmd "x") (ExecResult.ok "55")] }) :=
  ⟨by decide, by decide, by decide,
    (checkProcessUnix_strategy_order sysSecondStrategy "x" initState).2.1
      "55" (by decide) (by decide) (by decide)⟩

/-- The splitter never returns an empty list of pieces. -/
theorem jsSplitAux_ne_nil (sep : List Char) :
    ∀ (fuel : Nat) (cs : List Char), ¬jsSplitAux sep fuel cs = [] := by
  intro fuel cs
  match fuel, cs with
  | 0, _ => simp [jsSplitAux]
  | _ + 1, [] => simp [jsSplitAux]
  | fuel + 1, c :: rest =>
    rw [jsSplitAux]
    by_cases hpre : sep.isPrefixOf (c :: rest)
    · simp [hpre]
    · simp only [hpre, if_false, Bool.false_eq_true]
      cases htail : jsSplitAux sep fuel rest <;> simp

/-- A JavaScript split always has at least one piece. -/
theorem jsSplit_length_pos (s sep : String) : 0 < (jsSplit s sep).length := by
  rw [jsSplit, List.length_map]
  exact List.length_pos.mpr (jsSplitAux_ne_nil sep.data (s.data.length + 1) s.data)

/-- C8: when the Windows listing succeeds and its first record mentions
the queried name, the probe strips the quotes of that record, splits it on
commas, parses the second field as the pid, keeps the first field as the
command text and reports running; concretely, the record with image
proc.exe and pid 4242 yields a running report with pid 4242; a failed
query, or an empty listing for a non-empty name, reports not running. -/
theorem checkProcessWindows_parse_spec (sys : Sys) (name : String)
    (s : PState) :
    (∀ out, sys s.time (tasklistCmd name) = ExecResult.ok out →
      jsIncludes ((jsSplit (jsTrim out) "\r\n").headD "") name = true →
      checkProcessWindows sys name s =
        ({ name := name,
           pid := parseIntJS (((jsSplit (stripQuotes
             ((jsSplit (jsTrim out) "\r\n").headD "")) ",").get? 1).getD
             "undefined"),
           running := true,
           command := some ((jsSplit (stripQuotes
             ((jsSplit (jsTrim out) "\r\n").headD "")) ",").headD "") },
         { time := s.time + 1,
           trace := s.trace ++
             [Event.exec (tasklistCmd name) (ExecResult.ok out)] }))
    ∧ (checkProcessWindows sysWinRecord "proc" initState).1 =
        { name := "proc", pid := some 4242, running := true,
          command := some "proc.exe" }
    ∧ (∀ c, sys s.time (tasklistCmd name) = ExecResult.err c →
      (checkProcessWindows sys name s).1 =
        { name := name, pid := some (-1), running := false })
    ∧ (∀ out, sys s.time (tasklistCmd name) = ExecResult.ok out →
      jsTrim out = "" → ¬name = "" →
      (checkProcessWindows sys name s).1 =
        { name := name, pid := some (-1), running := false }) := by
  refine ⟨?_, by decide, ?_, ?_⟩
  · intro out h hinc
    simp only [checkProcessWindows, execCmd, resultToExcept, h]
    rw [if_pos ⟨jsSplit_length_pos (jsTrim out) "\r\n", hinc⟩]
  · intro c h
    simp [checkProcessWindows, execCmd, resultToExcept, h]
  · intro out h hempty hname
    simp only [checkProcessWindows, execCmd, resultToExcept, h, hempty]
    rw [if_neg]
    rintro ⟨-, hinc⟩
    rw [show jsSplit "" "\r\n" = [""] from rfl] at hinc
    simp only [List.headD] at hinc
    rw [jsIncludes, decide_eq_true_iff] at hinc
    have hd : name.data = [] := by
      simpa using List.eq_nil_of_infix_nil hinc
    apply hname
    cases name with
    | mk d =>
      have hd2 : d = [] := hd
      rw [hd2]

/-- C8 witness: the concrete CSV record for the name proc parses to a
running report with pid 4242 and command text proc.exe. -/
theorem checkProcessWindows_parse_spec_witness :
    sysWinRecord initState.time (tasklistCmd "proc") =
      ExecResult.ok "\"proc.exe\",\"4242\",\"Services\",\"1\",\"10000 K\""
    ∧ jsIncludes ((jsSplit (jsTrim
        "\"proc.exe\",\"4242\",\"Services\",\"1\",\"10000 K\"") "\r\n").headD
        "") "proc" = true
    ∧ checkProcessWindows sysWinRecord "proc" initState =
        ({ name := "proc",
           pid := parseIntJS (((jsSplit (stripQuotes
             ((jsSplit (jsTrim
               "\"proc.exe\",\"4242\",\"Services\",\"1\",\"10000 K\"")
               "\r\n").headD "")) ",").get? 1).getD "undefined"),
           running := true,
           command := some ((jsSplit (stripQuotes
             ((jsSplit (jsTrim
               "\"proc.exe\",\"4242\",\"Services\",\"1\",\"10000 K\"")
               "\r\n").headD "")) ",").headD "") },
         { time := initState.time + 1,
           trace := initState.trace ++
             [Event.exec (tasklistCmd "proc") (ExecResult.ok
               "\"proc.exe\",\"4242\",\"Services\",\"1\",\"10000 K\"")] }) :=
  ⟨by decide, by decide,
    (checkProcessWindows_parse_spec sysWinRecord "proc" initState).1
      "\"proc.exe\",\"4242\",\"Services\",\"1\",\"10000 K\""
      (by decide) (by decide)⟩

/-- C9: the formatter is a total function; a running record renders the
check glyph, the name, the running label and the pid, while a stopped
record renders the x glyph, the name and the stopped label with no pid and
no digit at all; the two glyphs are distinct. -/
theorem formatProcessStatus_spec :
    formatProcessStatus { name := "x", pid := some 7, running := true } =
      "$(check) x: running (PID: 7)"
    ∧ jsIncludes (formatProcessStatus
        { name := "x", pid := some 7, running := true }) "7" = true
    ∧ jsIncludes (formatProcessStatus
        { name := "x", pid := some 7, running := true }) "$(check)" = true
    ∧ formatProcessStatus { name := "x", pid := some (-1), running := false }
        = "$(x) x: stoped"
    ∧ (∀ c ∈ (formatProcessStatus
        { name := "x", pid := some (-1), running := false }).data,
        c.isDigit = false)
    ∧ (∀ info : ProcessInfo, info.running = false →
        formatProcessStatus info = "$(x) " ++ info.name ++ ": stoped")
    ∧ ¬("$(check)" : String) = "$(x)" := by
  refine ⟨by decide, by decide, by decide, by decide, by decide, ?_, by decide⟩
  intro info h
  apply String.ext
  simp [formatProcessStatus, h, String.data_append, List.append_assoc]

/-- C9 witness: the general stopped rendering applied to a concrete
record. -/
theorem formatProcessStatus_spec_witness :
    formatProcessStatus
      { name := "ghost", pid := some (-1), running := false } =
      "$(x) ghost: stoped" := by
  rw [formatProcessStatus_spec.2.2.2.2.2.1
    { name := "ghost", pid := some (-1), running := false } rfl]
  decide

/-- The Windows probe reports the queried name, and fills the optional
command text exactly on its running reports. -/
theorem checkProcessWindows_fields (sys : Sys) (name : String) (s : PState) :
    (checkProcessWindows sys name s).1.name = name
    ∧ ((checkProcessWindows sys name s).1.command.isSome = true ↔
        (checkProcessWindows sys name s).1.running = true) := by
  cases h : sys s.time (tasklistCmd name) with
  | ok out =>
    simp only [checkProcessWindows, execCmd, resultToExcept, h]
    by_cases hcond : 0 < (jsSplit (jsTrim out) "\r\n").length ∧
        jsIncludes ((jsSplit (jsTrim out) "\r\n").headD "") name = true
    · rw [if_pos hcond]; simp
    · rw [if_neg hcond]; simp
  | err c =>
    simp [checkProcessWindows, execCmd, resultToExcept, h]

/-- C10: on both platform branches the probe result carries the queried
name; the optional command text is present exactly on running reports on
the Windows branch, and never present on the non-Windows branch. -/
theorem probe_fields_spec (sys : Sys) (name : String) (s : PState) :
    (checkProcessWindows sys name s).1.name = name
    ∧ ((checkProcessWindows sys name s).1.command.isSome = true ↔
        (checkProcessWindows sys name s).1.running = true)
    ∧ (checkProcessUnix sys name s).1.name = name
    ∧ (checkProcessUnix sys name s).1.command = none :=
  ⟨(checkProcessWindows_fields sys name s).1,
   (checkProcessWindows_fields sys name s).2,
   (checkProcessUnixLoop_fields sys name (unixPatterns name) s).1,
   (checkProcessUnixLoop_fields sys name (unixPatterns name) s).2⟩

/-- C10 witness: field invariants evaluated on a concrete oracle. -/
theorem probe_fields_spec_witness :
    (checkProcessUnix sysErrAll "ghost" initState).1.name = "ghost"
    ∧ (checkProcessUnix sysErrAll "ghost" initState).1.command = none :=
  ⟨(probe_fields_spec sysErrAll "ghost" initState).2.2.1,
   (probe_fields_spec sysErrAll "ghost" initState).2.2.2⟩

/-- The platform dispatcher preserves the queried name on both branches. -/
theorem checkProcess_name (sys : Sys) (win : Bool) (name : String)
    (s : PState) : (checkProcess sys win name s).1.name = name := by
  cases win with
  | true =>
    simpa [checkProcess] using (checkProcessWindows_fields sys name s).1
  | false =>
    simpa [checkProcess] using
      (checkProcessUnixLoop_fields sys name (unixPatterns name) s).1

/-- C1 counterexample: one managed name failing fatally makes the whole
kill-all join reject, so no per-name entry at all is produced, although the
serve-d member on its own terminated successfully. -/
theorem killAllProcesses_fatal_counterexample :
    killAllProcesses true sysOkKill sysFatalKill sysOkKill false =
      Except.error (some 2)
    ∧ (killProcess sysOkKill true "serve-d" false initState).1 =
        Except.ok true :=
  ⟨by decide, by decide⟩

/-- C1 amended: the check orchestrator always yields exactly one entry per
managed name; the kill orchestrator yields exactly one entry per managed
name when every member fulfils, but a fatal failure of any member rejects
the whole join, producing no entries. -/
theorem allProcesses_join_spec (win : Bool) (sysA sysB sysC : Sys)
    (force : Bool) :
    ((checkAllProcesses win sysA sysB sysC).served.name = "serve-d"
     ∧ (checkAllProcesses win sysA sysB sysC).dcdServer.name = "dcd-server"
     ∧ (checkAllProcesses win sysA sysB sysC).dcdClient.name = "dcd-client")
    ∧ (∀ a b c,
        (killProcess sysA win "serve-d" force initState).1 = Except.ok a →
        (killProcess sysB win "dcd-server" force initState).1 = Except.ok b →
        (killProcess sysC win "dcd-client" force initState).1 = Except.ok c →
        killAllProcesses win sysA sysB sysC force =
          Except.ok { served := a, dcdServer := b, dcdClient := c })
    ∧ (∀ e, ((killProcess sysA win "serve-d" force initState).1 =
            Except.error e
          ∨ (killProcess sysB win "dcd-server" force initState).1 =
            Except.error e
          ∨ (killProcess sysC win "dcd-client" force initState).1 =
            Except.error e) →
        ∃ e2, killAllProcesses win sysA sysB sysC force =
          Except.error e2) := by
  refine ⟨⟨checkProcess_name sysA win "serve-d" initState,
      checkProcess_name sysB win "dcd-server" initState,
      checkProcess_name sysC win "dcd-client" initState⟩, ?_, ?_⟩
  · intro a b c ha hb hc
    simp [killAllProcesses, ha, hb, hc]
  · intro e he
    cases hA : (killProcess sysA win "serve-d" force initState).1 with
    | error eA =>
      refine ⟨eA, ?_⟩
      rw [killAllProcesses, hA]
      cases hB : (killProcess sysB win "dcd-server" force initState).1 <;>
        cases hC : (killProcess sysC win "dcd-client" force initState).1 <;>
          rfl
    | ok a =>
      cases hB : (killProcess sysB win "dcd-server" force initState).1 with
      | error eB =>
        refine ⟨eB, ?_⟩
        rw [killAllProcesses, hA, hB]
        cases hC : (killProcess sysC win "dcd-client" force initState).1 <;>
          rfl
      | ok b =>
        cases hC : (killProcess sysC win "dcd-client" force initState).1 with
        | error eC => exact ⟨eC, by rw [killAllProcesses, hA, hB, hC]⟩
        | ok c =>
          exfalso
          rcases he with he | he | he
          · rw [hA] at he
            exact Except.noConfusion he
          · rw [hB] at he
            exact Except.noConfusion he
          · rw [hC] at he
            exact Except.noConfusion he

/-- C1 witness: with every member fulfilling, the kill join returns the
record of the three outcomes, and the check join names its entries after
the managed set. -/
theorem allProcesses_join_spec_witness :
    (killProcess sysOkKill true "serve-d" false initState).1 = Except.ok true
    ∧ killAllProcesses true sysOkKill sysOkKill sysOkKill false =
        Except.ok { served := true, dcdServer := true, dcdClient := true } :=
  ⟨by decide,
    (allProcesses_join_spec true sysOkKill sysOkKill sysOkKill false).2.1
      true true true (by decide) (by decide) (by decide)⟩
